import Mathlib

/-!
Shallow embedding of the vector-storage core of the guti repository:
`ai/vector_validation.go`, `ai/types.go`, and the `PostgresProvider`
part of `ai/chunking.go`.

Modelling conventions: `time.Time` is a `Nat` (0 is Go's zero value),
`float32` vector entries are `Int` (vector payloads are opaque to every
verified claim, and the backend's `<->` evaluation is modelled as squared
L2 distance, which orders rows exactly like true L2), Go `error` values are an explicit
sum of `*VectorError` and plain errors, and the Postgres backend is an
explicit state (`Store`) whose transactional writes return the original
state on every error path (rollback) and the updated state on commit.
-/

namespace Guti

/-- Runtime-typed Go metadata value (`interface\x7b\x7d` in the source).
`validateFieldType` inspects only the dynamic type tag, and no modelled
check reads array element values, so `arrayV` carries none. -/
inductive GoValue where
  | str (s : String)
  | intV (n : Int)
  | floatV (q : Rat)
  | boolV (b : Bool)
  | datetime (t : Nat)
  | arrayV
  | other (tname : String)
deriving DecidableEq, Repr

/-- Go dynamic type name of a value, as `%T` prints it. -/
def GoValue.goTypeName : GoValue → String
  | .str _ => "string"
  | .intV _ => "int"
  | .floatV _ => "float64"
  | .boolV _ => "bool"
  | .datetime _ => "time.Time"
  | .arrayV => "[]interface \x7b\x7d"
  | .other tname => tname

/-- Text rendering of a metadata value, used both for the JSON `->>`
text extraction and for Go's `%v` formatting of a filter value (the two
coincide on the scalar kinds; no verified claim depends on the exact
rendering of the non-scalar kinds). -/
def GoValue.text : GoValue → String
  | .str s => s
  | .intV n => toString n
  | .floatV q => toString q
  | .boolV b => if b then "true" else "false"
  | .datetime t => toString t
  | .arrayV => "[]"
  | .other tname => tname

/-- Document metadata: `map[string]interface\x7b\x7d`, as an association
list (Go map iteration order is unspecified; the claims below never
depend on which of several offending fields is reported first). -/
abbrev Metadata := List (String × GoValue)

def metaLookup (md : Metadata) (key : String) : Option GoValue :=
  (md.find? (fun kv => kv.1 == key)).map (fun kv => kv.2)

/-- Structure `VectorFieldConfig` from `ai/types.go` (`Type` is `fieldType` here). -/
structure VectorFieldConfig where
  fieldType : String
  required : Bool
  indexed : Bool
deriving DecidableEq, Repr

/-- Structure `VectorCollectionConfig` from `ai/types.go`; the index and distance
types are string types in the source. -/
structure VectorCollectionConfig where
  name : String
  dimension : Int
  indexType : String
  distanceType : String
  customFields : List (String × VectorFieldConfig)
deriving DecidableEq, Repr

/-- Structure `VectorDocument` from `ai/types.go`. -/
structure VectorDocument where
  id : String
  vector : List Int
  content : String
  metadata : Metadata
  createdAt : Nat
  updatedAt : Nat
deriving DecidableEq, Repr

def IndexTypeFlat : String := "flat"
def IndexTypeIVFFlat : String := "ivf_flat"
def IndexTypeHNSW : String := "hnsw"
def DistanceTypeCosine : String := "cosine"
def DistanceTypeEuclidean : String := "euclidean"
def DistanceTypeDotProduct : String := "dot_product"

/-- Structure `VectorSearchOptions` from `ai/types.go`. -/
structure VectorSearchOptions where
  limit : Int
  offset : Int
  filter : List (String × GoValue)
  includeMetadata : Bool
  includeVectors : Bool
deriving DecidableEq, Repr

/-- Options substituted when the caller passes `opts == nil`. -/
def defaultSearchOptions : VectorSearchOptions :=
  { limit := 10, offset := 0, filter := [], includeMetadata := true, includeVectors := false }

/-- Structure `VectorSearchResult` from `ai/types.go`. -/
structure VectorSearchResult where
  document : VectorDocument
  score : Int
  distance : Int
deriving DecidableEq, Repr

/-- Structure `VectorError` (the wrapped cause is irrelevant to the claims). -/
structure VectorError where
  code : Int
  message : String
deriving DecidableEq, Repr

def ErrCodeNotFound : Int := 404
def ErrCodeInvalidDimension : Int := 400
def ErrCodeInvalidConfig : Int := 401
def ErrCodeCollectionExists : Int := 402
def ErrCodeCollectionNotFound : Int := 403
def ErrCodeInvalidVector : Int := 405
def ErrCodeConnectionFailed : Int := 500
def ErrCodeOperationFailed : Int := 501

def ErrDocumentNotFound : VectorError := ⟨ErrCodeNotFound, "document not found"⟩
def ErrCollectionNotFound : VectorError := ⟨ErrCodeCollectionNotFound, "collection not found"⟩
def ErrCollectionExists : VectorError := ⟨ErrCodeCollectionExists, "collection already exists"⟩
def ErrInvalidDimension : VectorError := ⟨ErrCodeInvalidDimension, "invalid vector dimension"⟩

/-- Go `error` values as observed by callers: either a `*VectorError`
or a plain error (`fmt.Errorf` or a raw driver error). -/
inductive GoError where
  | vec (e : VectorError)
  | plain (msg : String)
deriving DecidableEq, Repr

/-- Collection-name pattern `[a-zA-Z][a-zA-Z0-9_-]` with 2 to 63 tail
characters, anchored at both ends (`vector_validation.go`). -/
def validCollectionName (s : String) : Bool :=
  match s.toList with
  | [] => false
  | c :: rest =>
      c.isAlpha && decide (2 ≤ rest.length) && decide (rest.length ≤ 63) &&
        rest.all (fun d => d.isAlphanum || d == '_' || d == '-')

/-- Field-name pattern `[a-zA-Z][a-zA-Z0-9_]` with 2 to 63 tail
characters, anchored at both ends (`vector_validation.go`). -/
def validFieldName (s : String) : Bool :=
  match s.toList with
  | [] => false
  | c :: rest =>
      c.isAlpha && decide (2 ≤ rest.length) && decide (rest.length ≤ 63) &&
        rest.all (fun d => d.isAlphanum || d == '_')

/-- Function `validateFieldType`: the value's dynamic type must match the declared
field type; a declared type outside the six kinds is accepted here (the
Go switch has no default arm), returning the error message otherwise. -/
def validateFieldType (value : GoValue) (expectedType : String) : Option String :=
  if expectedType == "string" then
    match value with
    | .str _ => none
    | v => some ("expected string, got " ++ v.goTypeName)
  else if expectedType == "int" then
    match value with
    | .intV _ => none
    | v => some ("expected integer, got " ++ v.goTypeName)
  else if expectedType == "float" then
    match value with
    | .floatV _ => none
    | v => some ("expected float, got " ++ v.goTypeName)
  else if expectedType == "bool" then
    match value with
    | .boolV _ => none
    | v => some ("expected boolean, got " ++ v.goTypeName)
  else if expectedType == "datetime" then
    match value with
    | .datetime _ => none
    | v => some ("expected datetime, got " ++ v.goTypeName)
  else if expectedType == "array" then
    match value with
    | .arrayV => none
    | v => some ("expected array, got " ++ v.goTypeName)
  else none

/-- Function `validateCustomFields`: required fields must be present, present
fields must have the declared type. -/
def validateCustomFields (metadata : Metadata) :
    List (String × VectorFieldConfig) → Option VectorError
  | [] => none
  | (name, field) :: rest =>
    match metaLookup metadata name with
    | none =>
        if field.required then
          some ⟨ErrCodeInvalidConfig, "required field missing: " ++ name⟩
        else validateCustomFields metadata rest
    | some value =>
        match validateFieldType value field.fieldType with
        | some msg =>
            some ⟨ErrCodeInvalidConfig, "invalid value for field " ++ name ++ ": " ++ msg⟩
        | none => validateCustomFields metadata rest

/-- Timestamp stamping inside `ValidateDocument`: a zero-valued
`CreatedAt`/`UpdatedAt` is set to the current time (the in-place
mutation the Go code performs through the document pointer). -/
def stampTimes (now : Nat) (doc : VectorDocument) : VectorDocument :=
  let doc := if doc.createdAt = 0 then { doc with createdAt := now } else doc
  if doc.updatedAt = 0 then { doc with updatedAt := now } else doc

/-- Model of `VectorValidator.ValidateDocument`.  The Go function mutates the
document through its pointer when stamping zero timestamps; the model
returns the possibly-mutated document alongside the error, which is
exactly what the caller observes.  The `doc == nil` guard has no
counterpart here (documents are values).  `now` stands for `time.Now()`. -/
def ValidateDocument (now : Nat) (doc : VectorDocument) (config : VectorCollectionConfig) :
    VectorDocument × Option VectorError :=
  if doc.id = "" then
    (doc, some ⟨ErrCodeInvalidConfig, "document ID cannot be empty"⟩)
  else if (doc.vector.length : Int) ≠ config.dimension then
    (doc, some ⟨ErrCodeInvalidDimension,
      "expected vector dimension " ++ toString config.dimension ++
        ", got " ++ toString doc.vector.length⟩)
  else
    let doc := stampTimes now doc
    match validateCustomFields doc.metadata config.customFields with
    | some e => (doc, some e)
    | none => (doc, none)

/-- Function `validateField`: field-name pattern plus the closed set of types. -/
def validateField (name : String) (field : VectorFieldConfig) : Option VectorError :=
  if validFieldName name = false then
    some ⟨ErrCodeInvalidConfig, "invalid field name format: " ++ name⟩
  else if field.fieldType == "string" || field.fieldType == "int" ||
      field.fieldType == "float" || field.fieldType == "bool" ||
      field.fieldType == "datetime" || field.fieldType == "array" then
    none
  else
    some ⟨ErrCodeInvalidConfig, "invalid field type: " ++ field.fieldType⟩

def validateFieldList : List (String × VectorFieldConfig) → Option VectorError
  | [] => none
  | (n, f) :: rest =>
    match validateField n f with
    | some e => some e
    | none => validateFieldList rest

/-- Model of `VectorValidator.ValidateCollection` (the `config == nil` guard has
no counterpart); `maxDimension` is the validator's only state. -/
def ValidateCollection (maxDimension : Int) (config : VectorCollectionConfig) :
    Option VectorError :=
  if validCollectionName config.name = false then
    some ⟨ErrCodeInvalidConfig, "invalid collection name format"⟩
  else if config.dimension ≤ 0 ∨ config.dimension > maxDimension then
    some ⟨ErrCodeInvalidDimension, "dimension must be between 1 and " ++ toString maxDimension⟩
  else validateFieldList config.customFields

/-- One row of a per-collection physical table (`id` primary key,
vector, content, metadata, timestamps). -/
structure StoredRow where
  id : String
  vector : List Int
  content : String
  metadata : Metadata
  createdAt : Nat
  updatedAt : Nat
deriving DecidableEq, Repr

/-- One row of the `vector_collections` metadata table in the provider's
single schema (`schema_name` is the provider constant and is dropped). -/
structure CollMeta where
  name : String
  dimension : Int
  indexType : String
  distanceType : String
  customFields : List (String × VectorFieldConfig)
deriving DecidableEq, Repr

/-- Backend state one `PostgresProvider` observes: the metadata rows and
one physical table per collection, keyed by collection name. -/
structure Store where
  metaRows : List CollMeta
  tables : List (String × List StoredRow)
deriving DecidableEq, Repr

def emptyStore : Store := ⟨[], []⟩

/-- Physical table of a collection, when the relation exists. -/
def getTable (st : Store) (coll : String) : Option (List StoredRow) :=
  (st.tables.find? (fun e => e.1 == coll)).map (fun e => e.2)

/-- Replace the contents of the collection's physical table. -/
def setTable (st : Store) (coll : String) (rows : List StoredRow) : Store :=
  { st with tables := st.tables.map (fun e => if e.1 == coll then (e.1, rows) else e) }

/-- Function `getCollectionConfig`: one metadata-row lookup (`WHERE name = $1 AND
schema_name = $2`); no row gives `ErrCollectionNotFound`. -/
def getCollectionConfig (st : Store) (name : String) :
    Except VectorError VectorCollectionConfig :=
  match st.metaRows.find? (fun m => m.name == name) with
  | none => .error ErrCollectionNotFound
  | some m => .ok ⟨name, m.dimension, m.indexType, m.distanceType, m.customFields⟩

/-- Function `buildIndexQuery`: the index DDL threads both the index method and
the distance operator class in from the stored config. -/
def buildIndexQuery (tableName : String) (config : VectorCollectionConfig) : String :=
  let operator :=
    if config.distanceType == DistanceTypeCosine then "vector_cosine_ops"
    else if config.distanceType == DistanceTypeEuclidean then "vector_l2_ops"
    else if config.distanceType == DistanceTypeDotProduct then "vector_ip_ops"
    else "vector_cosine_ops"
  if config.indexType == IndexTypeIVFFlat then
    "CREATE INDEX ON " ++ tableName ++ " USING ivfflat (vector " ++ operator ++ ")"
  else if config.indexType == IndexTypeHNSW then
    "CREATE INDEX ON " ++ tableName ++ " USING hnsw (vector " ++ operator ++ ")"
  else
    "CREATE INDEX ON " ++ tableName ++ " USING ivfflat (vector " ++ operator ++ ")"

/-- Model of `PostgresProvider.CreateCollection`: validate, then in one
transaction create the table (`CREATE TABLE IF NOT EXISTS` is a no-op on
an existing relation) and its index, and insert the metadata row, whose
`name` primary key turns a duplicate insert into a unique-constraint
violation (pq code 23505) reported as `ErrCollectionExists` with the
whole transaction rolled back. -/
def CreateCollection (maxDimension : Int) (st : Store) (config : VectorCollectionConfig) :
    Option GoError × Store :=
  match ValidateCollection maxDimension config with
  | some e => (some (.vec e), st)
  | none =>
    if st.metaRows.any (fun m => m.name == config.name) then
      (some (.vec ErrCollectionExists), st)
    else
      (none,
        { metaRows := st.metaRows ++ [⟨config.name, config.dimension, config.indexType,
            config.distanceType, config.customFields⟩],
          tables := if (getTable st config.name).isSome then st.tables
                    else st.tables ++ [(config.name, [])] })

/-- Effect of the `INSERT ... ON CONFLICT (id) DO UPDATE` statement of
`UpsertDocument`/`prepareBulkInsertStmt`: a conflicting `id` updates
vector, content, metadata and `updated_at` (the statement's
`$6 = time.Now()`), leaving `created_at` alone; otherwise a fresh row is
inserted with `created_at = $5 = doc.CreatedAt`. -/
def upsertRow (rows : List StoredRow) (doc : VectorDocument) (now : Nat) : List StoredRow :=
  if rows.any (fun r => r.id == doc.id) then
    rows.map (fun r =>
      if r.id == doc.id then
        { r with vector := doc.vector, content := doc.content,
                 metadata := doc.metadata, updatedAt := now }
      else r)
  else
    rows ++ [⟨doc.id, doc.vector, doc.content, doc.metadata, doc.createdAt, now⟩]

/-- Model of `PostgresProvider.UpsertDocument`: config lookup, validation (which
may stamp the document's timestamps), then the single upsert statement;
a missing physical relation surfaces as the wrapped backend error. -/
def UpsertDocument (now : Nat) (st : Store) (coll : String) (doc : VectorDocument) :
    Option GoError × Store :=
  match getCollectionConfig st coll with
  | .error e => (some (.vec e), st)
  | .ok config =>
    match ValidateDocument now doc config with
    | (_, some e) => (some (.vec e), st)
    | (doc', none) =>
      match getTable st coll with
      | none => (some (.vec ⟨ErrCodeOperationFailed, "failed to upsert document"⟩), st)
      | some rows => (none, setTable st coll (upsertRow rows doc' now))

/-- Outcome of a batch upsert: the returned error, the backend state
after commit or rollback, and the ids of the documents whose insert
statement was executed inside the transaction. -/
structure BatchResult where
  err : Option GoError
  store : Store
  trace : List String
deriving DecidableEq, Repr

/-- Loop body of `UpsertDocuments`: per document, validate and then
immediately execute the prepared insert inside the transaction; the
first validation failure returns at once.  The trace records each
executed insert. -/
def upsertBatchLoop (now : Nat) (config : VectorCollectionConfig) :
    List VectorDocument → List StoredRow → List String →
    Option VectorError × List StoredRow × List String
  | [], rows, trace => (none, rows, trace)
  | d :: ds, rows, trace =>
    match ValidateDocument now d config with
    | (_, some e) => (some e, rows, trace)
    | (d', none) => upsertBatchLoop now config ds (upsertRow rows d' now) (trace ++ [d'.id])

/-- Model of `PostgresProvider.UpsertDocuments`: empty batches return before the
config lookup; otherwise one transaction prepares the bulk insert
(failing on a missing relation), runs the validate-and-insert loop and
commits at the end; every error path rolls back, leaving the store as it
was. -/
def UpsertDocuments (now : Nat) (st : Store) (coll : String) (docs : List VectorDocument) :
    BatchResult :=
  if docs.isEmpty then ⟨none, st, []⟩
  else
    match getCollectionConfig st coll with
    | .error e => ⟨some (.vec e), st, []⟩
    | .ok config =>
      match getTable st coll with
      | none => ⟨some (.plain "failed to prepare bulk insert statement"), st, []⟩
      | some rows =>
        match upsertBatchLoop now config docs rows [] with
        | (some e, _, trace) => ⟨some (.vec e), st, trace⟩
        | (none, rows', trace) => ⟨none, setTable st coll rows', trace⟩

/-- Model of `PostgresProvider.GetDocument`: queries the collection's table
directly, with no config lookup.  A missing relation is a backend query
error wrapped as `OperationFailed`; zero rows give
`ErrDocumentNotFound`. -/
def GetDocument (st : Store) (coll docId : String) : Except GoError VectorDocument :=
  match getTable st coll with
  | none => .error (.vec ⟨ErrCodeOperationFailed, "failed to get document"⟩)
  | some rows =>
    match rows.find? (fun r => r.id == docId) with
    | none => .error (.vec ErrDocumentNotFound)
    | some r => .ok ⟨r.id, r.vector, r.content, r.metadata, r.createdAt, r.updatedAt⟩

/-- Function `buildSearchQuery`: the SQL text `SearchByVector` sends.  The
distance column is computed with the hard-coded `<->` operator; the
function receives only the table name and the options, never the
collection config.  (The `fmt.Sprintf` substitution of the `FROM %s`
placeholder is performed in place; source whitespace is reproduced.) -/
def buildSearchQuery (tableName : String) (opts : VectorSearchOptions) : String :=
  let head := "\n\t\tSELECT \n\t\t\tid, \n\t\t\tcontent, \n\t\t\tmetadata,\n\t\t\tcreated_at,\n\t\t\tupdated_at,\n\t\t"
  let vecCol := if opts.includeVectors then "vector," else ""
  let distFrom := "\n\t\tvector <-> $1 as distance\n\t\tFROM " ++ tableName ++ "\n\t"
  let filterClause :=
    if opts.filter.isEmpty then ""
    else "\nWHERE " ++ String.intercalate " AND "
      (opts.filter.map (fun kv => "metadata->>'" ++ kv.1 ++ "' = '" ++ kv.2.text ++ "'"))
  head ++ vecCol ++ distFrom ++ filterClause ++ "\nORDER BY distance" ++ "\nLIMIT $2 OFFSET $3"

/-- One row as the backend delivers it for the search query: the five
base columns, the vector column exactly when the query selected it, and
the computed distance column. -/
structure SearchRow where
  id : String
  content : String
  metadata : Metadata
  createdAt : Nat
  updatedAt : Nat
  vectorCol : Option (List Int)
  distance : Int
deriving DecidableEq, Repr

/-- Backend evaluation of `vector <-> $1`, as squared L2 distance (the
square orders rows exactly like the true L2 distance; no claim depends
on the numeric value itself). -/
def l2sq (v w : List Int) : Int :=
  (List.zipWith (fun a b => (a - b) * (a - b)) v w).sum

/-- Backend evaluation of the conjoined `metadata->>'k' = 'v'` clauses. -/
def matchesFilter (md : Metadata) (filter : List (String × GoValue)) : Bool :=
  filter.all (fun kv =>
    match metaLookup md kv.1 with
    | some v => v.text == kv.2.text
    | none => false)

def toSearchRow (includeVectors : Bool) (qvec : List Int) (r : StoredRow) : SearchRow :=
  ⟨r.id, r.content, r.metadata, r.createdAt, r.updatedAt,
    if includeVectors then some r.vector else none, l2sq qvec r.vector⟩

def insertByDistance (r : SearchRow) : List SearchRow → List SearchRow
  | [] => [r]
  | x :: xs => if r.distance ≤ x.distance then r :: x :: xs else x :: insertByDistance r xs

/-- Sorting for `ORDER BY distance`, ascending (ties in unspecified backend order). -/
def sortByDistance (rows : List SearchRow) : List SearchRow :=
  rows.foldr insertByDistance []

/-- Row set the search query returns: equality filter, distance order,
then `OFFSET` and `LIMIT`. -/
def searchPageRows (rows : List StoredRow) (qvec : List Int) (opts : VectorSearchOptions) :
    List SearchRow :=
  let matched := (rows.filter (fun r => matchesFilter r.metadata opts.filter)).map
    (toSearchRow opts.includeVectors qvec)
  ((sortByDistance matched).drop opts.offset.toNat).take opts.limit.toNat

/-- Model of `scanSearchResults`.  `hasVector` is declared and never assigned in
the source, so it is `false` on every iteration: the scan-target list
never includes the vector, and a row that does carry the vector column
makes `rows.Scan` fail with a column-count mismatch, wrapped as
`OperationFailed`.  With `includeMetadata` unset the metadata bytes are
never unmarshalled (the document keeps Go's nil map). -/
def scanSearchResults : List SearchRow → Bool → Except GoError (List VectorSearchResult)
  | [], _ => .ok []
  | row :: rest, includeMetadata =>
    let hasVector := false
    let columnCount := 6 + (if row.vectorCol.isSome then 1 else 0)
    let scanArgCount := 6 + (if hasVector then 1 else 0)
    if columnCount ≠ scanArgCount then
      .error (.vec ⟨ErrCodeOperationFailed, "failed to scan search result"⟩)
    else
      let doc : VectorDocument :=
        { id := row.id, vector := if hasVector then row.vectorCol.getD [] else [],
          content := row.content,
          metadata := if includeMetadata then row.metadata else [],
          createdAt := row.createdAt, updatedAt := row.updatedAt }
      match scanSearchResults rest includeMetadata with
      | .error e => .error e
      | .ok rs => .ok ({ document := doc, score := 1 - row.distance, distance := row.distance } :: rs)

/-- Model of `PostgresProvider.SearchByVector`: config lookup, dimension check,
option defaulting, query execution (a missing relation is a wrapped
backend error), then row scanning. -/
def SearchByVector (st : Store) (coll : String) (vector : List Int)
    (optsIn : Option VectorSearchOptions) : Except GoError (List VectorSearchResult) :=
  match getCollectionConfig st coll with
  | .error e => .error (.vec e)
  | .ok config =>
    if (vector.length : Int) ≠ config.dimension then .error (.vec ErrInvalidDimension)
    else
      let opts := optsIn.getD defaultSearchOptions
      match getTable st coll with
      | none => .error (.vec ⟨ErrCodeOperationFailed, "failed to execute search query"⟩)
      | some rows => scanSearchResults (searchPageRows rows vector opts) opts.includeMetadata

/-- SQL text that `SearchByVector` constructs once the collection's
config has resolved (`tableName = schema + "." + collection` with the
default `public` schema); the construction reads only the table name and
the options. -/
def searchQueryFor (st : Store) (coll : String) (optsIn : Option VectorSearchOptions) :
    Option String :=
  match getCollectionConfig st coll with
  | .error _ => none
  | .ok _ => some (buildSearchQuery ("public." ++ coll) (optsIn.getD defaultSearchOptions))

/-- Does the character list `l` start with `pat`? -/
def startsWith : List Char → List Char → Bool
  | _, [] => true
  | [], _ :: _ => false
  | a :: as, b :: bs => a == b && startsWith as bs

/-- Does `pat` occur contiguously inside `l`? -/
def containsSub : List Char → List Char → Bool
  | [], pat => startsWith [] pat
  | a :: as, pat => startsWith (a :: as) pat || containsSub as pat

/-- Does the SQL text `q` compute its distance column with operator `op`? -/
def queryUsesOperator (q op : String) : Bool :=
  containsSub q.toList ("vector " ++ op ++ " $1").toList

/-- Distance operator the specification pairs with each stored
`distanceType` (the cosine operator for cosine, the L2 operator for
euclidean, the inner-product operator for dot_product).  Stated from the
spec's words, for comparison against `buildSearchQuery`. -/
def specSearchDistanceOperator (distanceType : String) : String :=
  if distanceType == DistanceTypeCosine then "<=>"
  else if distanceType == DistanceTypeEuclidean then "<->"
  else if distanceType == DistanceTypeDotProduct then "<#>"
  else "<=>"

/-- Dimension invariant: every row of every collection's table has a
vector of the length its metadata row records. -/
abbrev storeInvariant (st : Store) : Prop :=
  ∀ e ∈ st.tables, ∀ m ∈ st.metaRows, m.name = e.1 →
    ∀ r ∈ e.2, (r.vector.length : Int) = m.dimension

/-- Primary-key well-formedness of the metadata table: collection names
are unique (enforced by `name TEXT PRIMARY KEY`). -/
abbrev metaNamesNodup (st : Store) : Prop :=
  (st.metaRows.map (fun m => m.name)).Nodup

/-! Helper lemmas. -/

lemma string_toList_append (s t : String) : (s ++ t).toList = s.toList ++ t.toList := rfl

lemma stampTimes_id (now : Nat) (doc : VectorDocument) : (stampTimes now doc).id = doc.id := by
  unfold stampTimes
  dsimp only
  split <;> split <;> rfl

lemma stampTimes_vector (now : Nat) (doc : VectorDocument) :
    (stampTimes now doc).vector = doc.vector := by
  unfold stampTimes
  dsimp only
  split <;> split <;> rfl

lemma stampTimes_metadata (now : Nat) (doc : VectorDocument) :
    (stampTimes now doc).metadata = doc.metadata := by
  unfold stampTimes
  dsimp only
  split <;> split <;> rfl

lemma stampTimes_of_zero (now : Nat) (doc : VectorDocument)
    (hc : doc.createdAt = 0) (hu : doc.updatedAt = 0) :
    stampTimes now doc = { doc with createdAt := now, updatedAt := now } := by
  unfold stampTimes
  simp [hc, hu]

lemma validateDocument_fst (now : Nat) (doc : VectorDocument) (config : VectorCollectionConfig) :
    (ValidateDocument now doc config).1 =
      if doc.id = "" then doc
      else if (doc.vector.length : Int) ≠ config.dimension then doc
      else stampTimes now doc := by
  unfold ValidateDocument
  split
  · rfl
  · split
    · rfl
    · dsimp only
      cases validateCustomFields (stampTimes now doc).metadata config.customFields <;> rfl

lemma validateDocument_fst_id (now : Nat) (doc : VectorDocument)
    (config : VectorCollectionConfig) : (ValidateDocument now doc config).1.id = doc.id := by
  rw [validateDocument_fst]
  split
  · rfl
  · split
    · rfl
    · exact stampTimes_id now doc

lemma validateDocument_fst_vector (now : Nat) (doc : VectorDocument)
    (config : VectorCollectionConfig) :
    (ValidateDocument now doc config).1.vector = doc.vector := by
  rw [validateDocument_fst]
  split
  · rfl
  · split
    · rfl
    · exact stampTimes_vector now doc

lemma validateDocument_ok_length {now : Nat} {doc d' : VectorDocument}
    {config : VectorCollectionConfig} (h : ValidateDocument now doc config = (d', none)) :
    (doc.vector.length : Int) = config.dimension := by
  unfold ValidateDocument at h
  split at h
  · simp at h
  · split at h
    · simp at h
    · next hne => exact not_not.mp hne

lemma validateCustomFields_code {md : Metadata} {schema : List (String × VectorFieldConfig)}
    {e : VectorError} (h : validateCustomFields md schema = some e) :
    e.code = ErrCodeInvalidConfig := by
  induction schema with
  | nil => simp [validateCustomFields] at h
  | cons kv rest ih =>
    obtain ⟨name, field⟩ := kv
    unfold validateCustomFields at h
    cases hl : metaLookup md name with
    | none =>
      rw [hl] at h
      dsimp only at h
      split at h
      · cases h
        rfl
      · exact ih h
    | some v =>
      rw [hl] at h
      dsimp only at h
      cases hvt : validateFieldType v field.fieldType with
      | none =>
        rw [hvt] at h
        exact ih h
      | some msg =>
        rw [hvt] at h
        cases h
        rfl

lemma getCollectionConfig_setTable (st : Store) (coll name : String) (rows : List StoredRow) :
    getCollectionConfig (setTable st coll rows) name = getCollectionConfig st name := rfl

lemma find?_key_cons_pos {β : Type _} {a : String × β} {l : List (String × β)} {k : String}
    (h : (a.1 == k) = true) :
    List.find? (fun x => x.1 == k) (a :: l) = some a := by
  have hp : ((fun x : String × β => x.1 == k) a) = true := h
  exact List.find?_cons_of_pos _ hp

lemma find?_key_cons_neg {β : Type _} {a : String × β} {l : List (String × β)} {k : String}
    (h : (a.1 == k) = false) :
    List.find? (fun x => x.1 == k) (a :: l) = List.find? (fun x => x.1 == k) l := by
  have hp : ¬ (((fun x : String × β => x.1 == k) a) = true) := by simp [h]
  exact List.find?_cons_of_neg _ hp

lemma find?_id_cons_pos {a : StoredRow} {l : List StoredRow} {k : String}
    (h : (a.id == k) = true) :
    List.find? (fun x => x.id == k) (a :: l) = some a := by
  have hp : ((fun x : StoredRow => x.id == k) a) = true := h
  exact List.find?_cons_of_pos _ hp

lemma find?_id_cons_neg {a : StoredRow} {l : List StoredRow} {k : String}
    (h : (a.id == k) = false) :
    List.find? (fun x => x.id == k) (a :: l) = List.find? (fun x => x.id == k) l := by
  have hp : ¬ (((fun x : StoredRow => x.id == k) a) = true) := by simp [h]
  exact List.find?_cons_of_neg _ hp

lemma getTable_setTable_self {st : Store} {coll : String} {rows : List StoredRow}
    (rows' : List StoredRow) (h : getTable st coll = some rows) :
    getTable (setTable st coll rows') coll = some rows' := by
  obtain ⟨mr, tbls⟩ := st
  unfold getTable setTable at *
  dsimp only at *
  induction tbls with
  | nil => simp at h
  | cons e es ih =>
    simp only [List.map_cons]
    by_cases he : (e.1 == coll) = true
    · rw [if_pos he, find?_key_cons_pos]
      · rfl
      · exact he
    · have he' : (e.1 == coll) = false := by simpa using he
      rw [find?_key_cons_neg he'] at h
      rw [if_neg he, find?_key_cons_neg]
      · exact ih h
      · exact he'

lemma getTable_setTable_ne {st : Store} {coll coll' : String} (rows' : List StoredRow)
    (h : coll' ≠ coll) :
    getTable (setTable st coll rows') coll' = getTable st coll' := by
  obtain ⟨mr, tbls⟩ := st
  unfold getTable setTable
  dsimp only
  induction tbls with
  | nil => rfl
  | cons e es ih =>
    simp only [List.map_cons]
    by_cases hc : (e.1 == coll) = true
    · have hc' : e.1 = coll := by simpa using hc
      have hk : (e.1 == coll') = false := by
        rw [hc']
        exact beq_eq_false_iff_ne.2 fun hx => h hx.symm
      rw [if_pos hc, find?_key_cons_neg, find?_key_cons_neg]
      · exact ih
      · exact hk
      · exact hk
    · rw [if_neg hc]
      by_cases hk : (e.1 == coll') = true
      · rw [find?_key_cons_pos, find?_key_cons_pos]
        · exact hk
        · exact hk
      · have hk' : (e.1 == coll') = false := by simpa using hk
        rw [find?_key_cons_neg, find?_key_cons_neg]
        · exact ih
        · exact hk'
        · exact hk'

/-- Membership in an upserted table: a row is either an untouched old
row or carries the upserted document's vector. -/
lemma upsertRow_mem {rows : List StoredRow} {doc : VectorDocument} {now : Nat}
    {r : StoredRow} (h : r ∈ upsertRow rows doc now) :
    r ∈ rows ∨ r.vector = doc.vector := by
  unfold upsertRow at h
  split at h
  · obtain ⟨x, hx, hr⟩ := List.mem_map.1 h
    by_cases hid : (x.id == doc.id) = true
    · rw [if_pos hid] at hr
      right
      rw [← hr]
    · rw [if_neg hid] at hr
      left
      rw [← hr]
      exact hx
  · rcases List.mem_append.1 h with h | h
    · exact Or.inl h
    · right
      rcases List.mem_singleton.1 h with rfl
      rfl

/-- Lookup by `find?` after an upsert of an existing id returns the updated row. -/
lemma upsertRow_find_updated {rows : List StoredRow} {doc : VectorDocument} {now : Nat}
    {r : StoredRow} (h : rows.find? (fun x => x.id == doc.id) = some r) :
    (upsertRow rows doc now).find? (fun x => x.id == doc.id)
      = some { r with
                vector := doc.vector, content := doc.content,
                metadata := doc.metadata, updatedAt := now } := by
  have hmem : r ∈ rows := List.mem_of_find?_eq_some h
  have hpr := List.find?_some h
  have hany : rows.any (fun x => x.id == doc.id) = true := by
    rw [List.any_eq_true]
    exact ⟨r, hmem, hpr⟩
  unfold upsertRow
  rw [if_pos hany]
  clear hmem hany
  induction rows with
  | nil => simp at h
  | cons x xs ih =>
    by_cases hx : (x.id == doc.id) = true
    · rw [find?_id_cons_pos hx] at h
      cases h
      simp only [List.map_cons, if_pos hx]
      rw [find?_id_cons_pos]
      exact hx
    · have hx' : (x.id == doc.id) = false := by simpa using hx
      rw [find?_id_cons_neg hx'] at h
      simp only [List.map_cons, if_neg hx]
      rw [find?_id_cons_neg]
      · exact ih h
      · exact hx'


/-- Run of the batch loop on a batch whose first validation failure is
`bad`: the loop stops at `bad` with its validation error, having
executed exactly the inserts of the documents before it. -/
lemma upsertBatchLoop_first_failure {now : Nat} {config : VectorCollectionConfig}
    {bad : VectorDocument} {e : VectorError} (rest : List VectorDocument)
    (hbad : (ValidateDocument now bad config).2 = some e) :
    ∀ pre : List VectorDocument, (∀ d ∈ pre, (ValidateDocument now d config).2 = none) →
      ∀ rows trace, ∃ rs, upsertBatchLoop now config (pre ++ bad :: rest) rows trace
        = (some e, rs, trace ++ pre.map (fun d => d.id)) := by
  intro pre
  induction pre with
  | nil =>
    intro _ rows trace
    refine ⟨rows, ?_⟩
    rcases hval : ValidateDocument now bad config with ⟨d', res⟩
    rw [hval] at hbad
    dsimp only at hbad
    subst hbad
    simp [upsertBatchLoop, hval]
  | cons d ds ih =>
    intro hpre rows trace
    have hd : (ValidateDocument now d config).2 = none := hpre d (List.mem_cons_self d ds)
    rcases hval : ValidateDocument now d config with ⟨d', res⟩
    rw [hval] at hd
    dsimp only at hd
    subst hd
    have hds : ∀ x ∈ ds, (ValidateDocument now x config).2 = none := fun x hx =>
      hpre x (List.mem_cons_of_mem d hx)
    obtain ⟨rs, hrs⟩ := ih hds (upsertRow rows d' now) (trace ++ [d'.id])
    refine ⟨rs, ?_⟩
    have hid : d'.id = d.id := by
      have := validateDocument_fst_id now d config
      rw [hval] at this
      exact this
    simp only [List.cons_append, upsertBatchLoop, hval, List.append_eq]
    rw [hrs, hid]
    simp [List.append_assoc]

/-- Any element of an insertion-sorted list came from the input list. -/
lemma mem_insertByDistance {a r : SearchRow} {l : List SearchRow}
    (h : a ∈ insertByDistance r l) : a = r ∨ a ∈ l := by
  induction l with
  | nil => simpa [insertByDistance] using h
  | cons x xs ih =>
    unfold insertByDistance at h
    split at h
    · rcases List.mem_cons.1 h with h | h
      · exact Or.inl h
      · exact Or.inr h
    · rcases List.mem_cons.1 h with h | h
      · exact Or.inr (List.mem_cons.2 (Or.inl h))
      · rcases ih h with h | h
        · exact Or.inl h
        · exact Or.inr (List.mem_cons.2 (Or.inr h))

lemma mem_sortByDistance {a : SearchRow} {l : List SearchRow}
    (h : a ∈ sortByDistance l) : a ∈ l := by
  induction l with
  | nil => simp [sortByDistance] at h
  | cons x xs ih =>
    have hfold : sortByDistance (x :: xs) = insertByDistance x (sortByDistance xs) := rfl
    rw [hfold] at h
    rcases mem_insertByDistance h with h | h
    · exact h ▸ List.mem_cons_self x xs
    · exact List.mem_cons_of_mem x (ih h)

/-- Every row of a search page built with `IncludeVectors` carries the
vector column. -/
lemma searchPageRows_vectorCol {r : SearchRow} {rows : List StoredRow} {qvec : List Int}
    {opts : VectorSearchOptions} (hmem : r ∈ searchPageRows rows qvec opts)
    (hiv : opts.includeVectors = true) : r.vectorCol.isSome = true := by
  unfold searchPageRows at hmem
  dsimp only at hmem
  have h1 := List.mem_of_mem_take hmem
  have h2 := List.mem_of_mem_drop h1
  have h3 := mem_sortByDistance h2
  obtain ⟨x, _, hx⟩ := List.mem_map.1 h3
  rw [← hx]
  unfold toSearchRow
  rw [hiv]
  rfl

/-- Successful scans never populate the document vector (`hasVector` is
never set in the source). -/
lemma scanSearchResults_ok_vector {rows : List SearchRow} {im : Bool}
    {results : List VectorSearchResult} (h : scanSearchResults rows im = .ok results) :
    ∀ res ∈ results, res.document.vector = [] := by
  induction rows generalizing results with
  | nil =>
    unfold scanSearchResults at h
    cases h
    intro res hres
    simp at hres
  | cons row rest ih =>
    unfold scanSearchResults at h
    dsimp only at h
    split at h
    · cases h
    · cases hrec : scanSearchResults rest im with
      | error e => rw [hrec] at h; cases h
      | ok rs =>
        rw [hrec] at h
        cases h
        intro res hres
        rcases List.mem_cons.1 hres with hres | hres
        · subst hres
          rfl
        · exact ih hrec res hres

/-- The empty pattern occurs in every list. -/
lemma containsSub_nil (l : List Char) : containsSub l [] = true := by
  cases l <;> simp [containsSub, startsWith]

lemma startsWith_append (u v pat : List Char) (h : startsWith u pat = true) :
    startsWith (u ++ v) pat = true := by
  induction pat generalizing u with
  | nil => simp [startsWith]
  | cons b bs ih =>
    cases u with
    | nil => simp [startsWith] at h
    | cons a as =>
      rw [List.cons_append]
      simp only [startsWith, Bool.and_eq_true] at h ⊢
      exact ⟨h.1, ih as h.2⟩

lemma containsSub_append_right (x y pat : List Char) (h : containsSub y pat = true) :
    containsSub (x ++ y) pat = true := by
  induction x with
  | nil => simpa using h
  | cons a as ih =>
    rw [List.cons_append]
    simp only [containsSub, Bool.or_eq_true]
    exact Or.inr ih

lemma containsSub_append_left (x y pat : List Char) (h : containsSub x pat = true) :
    containsSub (x ++ y) pat = true := by
  induction x with
  | nil =>
    cases pat with
    | nil => exact containsSub_nil y
    | cons b bs => simp [containsSub, startsWith] at h
  | cons a as ih =>
    rw [List.cons_append]
    simp only [containsSub, Bool.or_eq_true] at h ⊢
    rcases h with h | h
    · exact Or.inl (by simpa [List.cons_append] using startsWith_append (a :: as) y pat h)
    · exact Or.inr (ih h)

/-- The SQL built by `buildSearchQuery` always contains the fixed
`vector <-> $1` distance expression, for every table and options. -/
lemma buildSearchQuery_uses_l2 (tableName : String) (opts : VectorSearchOptions) :
    queryUsesOperator (buildSearchQuery tableName opts) "<->" = true := by
  unfold queryUsesOperator buildSearchQuery
  dsimp only
  simp only [string_toList_append, List.append_assoc]
  apply containsSub_append_right
  apply containsSub_append_right
  apply containsSub_append_left
  decide

/-! Concrete fixtures used by counterexamples and witnesses. -/

def docsMeta : CollMeta := ⟨"docs", 1, "hnsw", "cosine", []⟩

def docsStore : Store := ⟨[docsMeta], [("docs", [])]⟩

def goodDoc : VectorDocument := ⟨"g", [0], "good", [], 1, 1⟩

def badDoc : VectorDocument := ⟨"b", [0, 0], "bad", [], 1, 1⟩

def rowD : StoredRow := ⟨"d1", [1], "old", [], 3, 4⟩

def rowStore : Store := ⟨[docsMeta], [("docs", [rowD])]⟩

def newDoc : VectorDocument := ⟨"d1", [2], "new", [], 0, 0⟩

def cosStore : Store := ⟨[⟨"docs", 3, "hnsw", "cosine", []⟩], [("docs", [])]⟩

def ivOpts : VectorSearchOptions := ⟨10, 0, [], true, true⟩

def emptyIdDoc : VectorDocument := ⟨"", [], "x", [], 1, 1⟩

def reqFieldConfig : VectorCollectionConfig :=
  ⟨"docs", 1, "hnsw", "cosine", [("category", ⟨"string", true, false⟩)]⟩

def noCatDoc : VectorDocument := ⟨"d", [0], "x", [], 0, 0⟩

/-! Claim theorems. -/

/-- C1 (amended): the SQL query `SearchByVector` constructs always
computes the distance column with the fixed L2 operator `<->`,
whatever the collection's stored `distanceType` is — the query
construction never reads the collection config. -/
theorem c1_search_query_operator_fixed (st : Store) (coll : String)
    (optsIn : Option VectorSearchOptions) (q : String)
    (hq : searchQueryFor st coll optsIn = some q) :
    queryUsesOperator q "<->" = true := by
  unfold searchQueryFor at hq
  cases hcfg : getCollectionConfig st coll with
  | error e =>
    rw [hcfg] at hq
    cases hq
  | ok config =>
    rw [hcfg] at hq
    cases hq
    exact buildSearchQuery_uses_l2 _ _

/-- C1: counterexample — the collection `docs` stores `distanceType`
cosine, yet the SQL query `SearchByVector` constructs for it does not
contain the cosine distance operator the claim requires; it contains the
hard-coded L2 operator `<->` instead. -/
theorem c1_counterexample :
    (getCollectionConfig cosStore "docs").toOption.map
        (fun c => c.distanceType) = some DistanceTypeCosine ∧
    (searchQueryFor cosStore "docs" none).map
        (fun q => queryUsesOperator q (specSearchDistanceOperator DistanceTypeCosine))
      = some false ∧
    (searchQueryFor cosStore "docs" none).map
        (fun q => queryUsesOperator q "<->") = some true := by
  refine ⟨rfl, ?_, ?_⟩ <;> decide

/-- C1 witness: the fixed-operator theorem applied to the concrete
cosine collection. -/
theorem c1_witness :
    queryUsesOperator (buildSearchQuery ("public." ++ "docs") defaultSearchOptions) "<->"
      = true :=
  c1_search_query_operator_fixed cosStore "docs" none _ rfl

/-- C4 (amended): on an unregistered collection (no metadata row, hence
no physical table), `SearchByVector` fails with `CollectionNotFound`,
but `GetDocument` does not: it queries the physical table directly and
surfaces the backend relation error wrapped as `OperationFailed`. -/
theorem c4_missing_collection (st : Store) (coll docId : String) (vec : List Int)
    (optsIn : Option VectorSearchOptions)
    (hm : getCollectionConfig st coll = .error ErrCollectionNotFound)
    (ht : getTable st coll = none) :
    SearchByVector st coll vec optsIn = .error (.vec ErrCollectionNotFound) ∧
    GetDocument st coll docId
      = .error (.vec ⟨ErrCodeOperationFailed, "failed to get document"⟩) := by
  constructor
  · unfold SearchByVector
    rw [hm]
  · unfold GetDocument
    rw [ht]

/-- C4: counterexample — on the empty store, where collection `docs` is
not registered, `GetDocument` fails with the `OperationFailed` code 501
(the wrapped backend relation error), not with `CollectionNotFound`
(code 403) as the claim requires. -/
theorem c4_counterexample :
    GetDocument emptyStore "docs" "d1"
      = .error (.vec ⟨ErrCodeOperationFailed, "failed to get document"⟩) ∧
    ErrCodeOperationFailed ≠ ErrCodeCollectionNotFound := by
  refine ⟨rfl, ?_⟩
  decide

/-- C4 witness: the amended theorem at the empty store. -/
theorem c4_witness :
    SearchByVector emptyStore "docs" [] none = .error (.vec ErrCollectionNotFound) ∧
    GetDocument emptyStore "docs" "d1"
      = .error (.vec ⟨ErrCodeOperationFailed, "failed to get document"⟩) :=
  c4_missing_collection emptyStore "docs" "d1" [] none rfl rfl

/-- C6: a second `CreateCollection` with an already-registered name (and
a config that passes validation, e.g. the same config again) fails with
`CollectionExists`, and the metadata table and the existing collection's
physical table are untouched by the failed attempt (the transaction's
table/index statements are rolled back). -/
theorem c6_create_duplicate (maxDimension : Int) (st : Store)
    (config : VectorCollectionConfig)
    (hv : ValidateCollection maxDimension config = none)
    (hex : st.metaRows.any (fun m => m.name == config.name) = true) :
    CreateCollection maxDimension st config = (some (.vec ErrCollectionExists), st) := by
  unfold CreateCollection
  rw [hv]
  dsimp only
  rw [if_pos hex]

/-- C6 witness: re-creating the registered collection `docs` with its
own (valid) config. -/
theorem c6_witness :
    CreateCollection 100 docsStore ⟨"docs", 1, "hnsw", "cosine", []⟩
      = (some (.vec ErrCollectionExists), docsStore) :=
  c6_create_duplicate 100 docsStore ⟨"docs", 1, "hnsw", "cosine", []⟩
    (by decide) (by decide)

/-- C8 (amended): a non-empty batch on an unregistered collection fails
with `CollectionNotFound` and leaves the store unchanged; the empty
batch, however, returns success before the collection's config is ever
resolved. -/
theorem c8_config_resolution :
    (∀ now st coll, UpsertDocuments now st coll [] = ⟨none, st, []⟩) ∧
    (∀ now st coll docs, docs ≠ [] →
      getCollectionConfig st coll = .error ErrCollectionNotFound →
      (UpsertDocuments now st coll docs).err = some (.vec ErrCollectionNotFound) ∧
      (UpsertDocuments now st coll docs).store = st) := by
  constructor
  · intro now st coll
    rfl
  · intro now st coll docs hne hc
    cases docs with
    | nil => exact absurd rfl hne
    | cons d ds => constructor <;> simp [UpsertDocuments, hc]

/-- C8: counterexample — the empty batch on the unregistered collection
`docs` returns success, not the `CollectionNotFound` failure the claim
requires for every list of documents including the empty list. -/
theorem c8_counterexample :
    UpsertDocuments 7 emptyStore "docs" [] = ⟨none, emptyStore, []⟩ ∧
    getCollectionConfig emptyStore "docs" = .error ErrCollectionNotFound ∧
    (none : Option GoError) ≠ some (.vec ErrCollectionNotFound) := by
  refine ⟨rfl, rfl, ?_⟩
  decide

/-- C8 witness: both parts of the amended theorem at the empty store. -/
theorem c8_witness :
    UpsertDocuments 7 emptyStore "docs" [] = ⟨none, emptyStore, []⟩ ∧
    (UpsertDocuments 7 emptyStore "docs" [goodDoc]).err
        = some (.vec ErrCollectionNotFound) ∧
    (UpsertDocuments 7 emptyStore "docs" [goodDoc]).store = emptyStore := by
  refine ⟨c8_config_resolution.1 7 emptyStore "docs", ?_, ?_⟩
  · exact (c8_config_resolution.2 7 emptyStore "docs" [goodDoc] (by decide) (by rfl)).1
  · exact (c8_config_resolution.2 7 emptyStore "docs" [goodDoc] (by decide) (by rfl)).2

/-- C2: a batch whose first validation failure is document `bad`
(after the valid documents `pre`) makes `UpsertDocuments` return that
validation error, and the stored state after the call equals the stored
state before it: no document of the batch is persisted. -/
theorem c2_upsertDocuments_atomic (now : Nat) (st : Store) (coll : String)
    (config : VectorCollectionConfig) (rows : List StoredRow)
    (pre rest : List VectorDocument) (bad : VectorDocument) (e : VectorError)
    (hc : getCollectionConfig st coll = .ok config)
    (ht : getTable st coll = some rows)
    (hpre : ∀ d ∈ pre, (ValidateDocument now d config).2 = none)
    (hbad : (ValidateDocument now bad config).2 = some e) :
    (UpsertDocuments now st coll (pre ++ bad :: rest)).err = some (.vec e) ∧
    (UpsertDocuments now st coll (pre ++ bad :: rest)).store = st := by
  obtain ⟨rs, hloop⟩ := upsertBatchLoop_first_failure rest hbad pre hpre rows []
  have hne : (pre ++ bad :: rest).isEmpty = false := by cases pre <;> rfl
  refine ⟨?_, ?_⟩ <;> simp [UpsertDocuments, hne, hc, ht, hloop]

/-- C2 witness: the two-document batch `[goodDoc, badDoc]` on the
registered dimension-1 collection `docs`. -/
theorem c2_witness :
    (UpsertDocuments 7 docsStore "docs" [goodDoc, badDoc]).err
        = some (.vec ⟨ErrCodeInvalidDimension, "expected vector dimension 1, got 2"⟩) ∧
    (UpsertDocuments 7 docsStore "docs" [goodDoc, badDoc]).store = docsStore :=
  c2_upsertDocuments_atomic 7 docsStore "docs" ⟨"docs", 1, "hnsw", "cosine", []⟩ []
    [goodDoc] [] badDoc ⟨ErrCodeInvalidDimension, "expected vector dimension 1, got 2"⟩
    (by rfl) (by rfl) (by decide) (by decide)

/-- C3 (amended): when a batch's first validation failure is document
`bad`, the insert statements of every document before `bad` have already
been executed inside the transaction when the error returns (their ids
are exactly the executed-statement trace); the failing document's own
insert and later ones never execute, and the rollback leaves the store
unchanged.  Only the transaction, not statement ordering, protects
atomicity. -/
theorem c3_inserts_interleaved (now : Nat) (st : Store) (coll : String)
    (config : VectorCollectionConfig) (rows : List StoredRow)
    (pre rest : List VectorDocument) (bad : VectorDocument) (e : VectorError)
    (hc : getCollectionConfig st coll = .ok config)
    (ht : getTable st coll = some rows)
    (hpre : ∀ d ∈ pre, (ValidateDocument now d config).2 = none)
    (hbad : (ValidateDocument now bad config).2 = some e) :
    (UpsertDocuments now st coll (pre ++ bad :: rest)).trace
        = pre.map (fun d => d.id) ∧
    (UpsertDocuments now st coll (pre ++ bad :: rest)).err = some (.vec e) ∧
    (UpsertDocuments now st coll (pre ++ bad :: rest)).store = st := by
  obtain ⟨rs, hloop⟩ := upsertBatchLoop_first_failure rest hbad pre hpre rows []
  have hne : (pre ++ bad :: rest).isEmpty = false := by cases pre <;> rfl
  refine ⟨?_, ?_, ?_⟩ <;> simp [UpsertDocuments, hne, hc, ht, hloop]

/-- C3: counterexample — in the two-document batch `[goodDoc, badDoc]`
whose second document fails validation, the first document's insert
statement has already been executed when the validation error returns:
the trace of executed inserts is `["g"]`, not the empty trace the claim
requires. -/
theorem c3_counterexample :
    (UpsertDocuments 7 docsStore "docs" [goodDoc, badDoc]).err.isSome = true ∧
    (UpsertDocuments 7 docsStore "docs" [goodDoc, badDoc]).trace = ["g"] ∧
    ["g"] ≠ ([] : List String) := by
  refine ⟨?_, ?_, ?_⟩ <;> decide

/-- C3 witness: the amended theorem at the concrete two-document
batch. -/
theorem c3_witness :
    (UpsertDocuments 9 docsStore "docs" [goodDoc, badDoc]).trace = ["g"] ∧
    (UpsertDocuments 9 docsStore "docs" [goodDoc, badDoc]).err
        = some (.vec ⟨ErrCodeInvalidDimension, "expected vector dimension 1, got 2"⟩) ∧
    (UpsertDocuments 9 docsStore "docs" [goodDoc, badDoc]).store = docsStore :=
  c3_inserts_interleaved 9 docsStore "docs" ⟨"docs", 1, "hnsw", "cosine", []⟩ []
    [goodDoc] [] badDoc ⟨ErrCodeInvalidDimension, "expected vector dimension 1, got 2"⟩
    (by rfl) (by rfl) (by decide) (by decide)

/-- C7: upserting a document whose id already exists in the collection
replaces the stored row's vector, content, metadata and `updatedAt`
(set to the call's `time.Now()`), while the stored `createdAt` keeps
the value it had before — the value set at first insert. -/
theorem c7_upsert_preserves_createdAt (now : Nat) (st : Store) (coll : String)
    (doc doc' : VectorDocument) (config : VectorCollectionConfig)
    (rows : List StoredRow) (r : StoredRow)
    (hc : getCollectionConfig st coll = .ok config)
    (hval : ValidateDocument now doc config = (doc', none))
    (ht : getTable st coll = some rows)
    (hr : rows.find? (fun x => x.id == doc.id) = some r) :
    (UpsertDocument now st coll doc).1 = none ∧
    getTable (UpsertDocument now st coll doc).2 coll = some (upsertRow rows doc' now) ∧
    (upsertRow rows doc' now).find? (fun x => x.id == doc.id)
      = some { r with
                vector := doc'.vector, content := doc'.content,
                metadata := doc'.metadata, updatedAt := now } := by
  have hres : UpsertDocument now st coll doc
      = (none, setTable st coll (upsertRow rows doc' now)) := by
    unfold UpsertDocument
    rw [hc]
    dsimp only
    rw [hval]
    dsimp only
    rw [ht]
  have hid : doc'.id = doc.id := by
    have hfst := validateDocument_fst_id now doc config
    rw [hval] at hfst
    exact hfst
  refine ⟨by rw [hres], ?_, ?_⟩
  · rw [hres]
    exact getTable_setTable_self _ ht
  · rw [← hid] at hr ⊢
    exact upsertRow_find_updated hr

/-- C7 witness: upsert of `newDoc` over the stored row `rowD` with the
same id; `createdAt` stays 3, the first-insert value, while the other
fields and `updatedAt` are replaced. -/
theorem c7_witness :
    (UpsertDocument 9 rowStore "docs" newDoc).1 = none ∧
    getTable (UpsertDocument 9 rowStore "docs" newDoc).2 "docs"
      = some (upsertRow [rowD] ⟨"d1", [2], "new", [], 9, 9⟩ 9) ∧
    (upsertRow [rowD] ⟨"d1", [2], "new", [], 9, 9⟩ 9).find? (fun x => x.id == newDoc.id)
      = some { rowD with
                vector := [2], content := "new", metadata := [], updatedAt := 9 } :=
  c7_upsert_preserves_createdAt 9 rowStore "docs" newDoc ⟨"d1", [2], "new", [], 9, 9⟩
    ⟨"docs", 1, "hnsw", "cosine", []⟩ [rowD] rowD (by rfl) (by decide) (by rfl) (by decide)

/-- C10: `ValidateDocument` stamps zero-valued timestamps after the id
and dimension checks but before custom-field validation, so a document
that is then rejected with an `InvalidConfig` custom-field error has
nevertheless been mutated: the validator's error path does not leave
the caller's document unchanged. -/
theorem c10_validate_mutates_on_error (now : Nat) (doc : VectorDocument)
    (config : VectorCollectionConfig) (e : VectorError)
    (hid : doc.id ≠ "")
    (hdim : (doc.vector.length : Int) = config.dimension)
    (hca : doc.createdAt = 0) (hua : doc.updatedAt = 0)
    (hcf : validateCustomFields doc.metadata config.customFields = some e)
    (hnz : now ≠ 0) :
    ValidateDocument now doc config
      = ({ doc with createdAt := now, updatedAt := now }, some e) ∧
    e.code = ErrCodeInvalidConfig ∧
    ({ doc with createdAt := now, updatedAt := now } : VectorDocument) ≠ doc := by
  have hstamp : stampTimes now doc = { doc with createdAt := now, updatedAt := now } :=
    stampTimes_of_zero now doc hca hua
  refine ⟨?_, validateCustomFields_code hcf, ?_⟩
  · unfold ValidateDocument
    rw [if_neg hid, if_neg (fun h => h hdim)]
    dsimp only
    rw [hstamp]
    dsimp only
    rw [hcf]
  · intro h
    have hcreated := congrArg VectorDocument.createdAt h
    dsimp at hcreated
    rw [hca] at hcreated
    exact hnz hcreated

/-- C10 witness: a zero-timestamp document missing the required field
`category` is rejected with `InvalidConfig`, yet comes back with both
timestamps stamped to the current time. -/
theorem c10_witness :
    ValidateDocument 5 noCatDoc reqFieldConfig
      = ({ noCatDoc with createdAt := 5, updatedAt := 5 },
         some ⟨ErrCodeInvalidConfig, "required field missing: category"⟩) ∧
    (⟨ErrCodeInvalidConfig, "required field missing: category"⟩ : VectorError).code
      = ErrCodeInvalidConfig ∧
    ({ noCatDoc with createdAt := 5, updatedAt := 5 } : VectorDocument) ≠ noCatDoc :=
  c10_validate_mutates_on_error 5 noCatDoc reqFieldConfig
    ⟨ErrCodeInvalidConfig, "required field missing: category"⟩
    (by decide) (by decide) (by rfl) (by rfl) (by rfl) (by decide)

/-- C5 (amended): upserting a document with a non-empty id whose vector
length differs from the registered dimension fails with
`InvalidDimension` and leaves the store unchanged (a document with an
empty id fails earlier with `InvalidConfig`); and `UpsertDocument`
preserves the store-wide invariant that every stored vector's length
equals its collection's registered dimension, so every stored document
keeps satisfying it. -/
theorem c5_dimension_enforced :
    (∀ now st coll doc config, getCollectionConfig st coll = .ok config →
      doc.id ≠ "" → (doc.vector.length : Int) ≠ config.dimension →
      UpsertDocument now st coll doc
        = (some (.vec ⟨ErrCodeInvalidDimension,
            "expected vector dimension " ++ toString config.dimension ++
              ", got " ++ toString doc.vector.length⟩), st)) ∧
    (∀ now st coll doc, metaNamesNodup st → storeInvariant st →
      storeInvariant (UpsertDocument now st coll doc).2) := by
  constructor
  · intro now st coll doc config hc hid hdim
    have hv : ValidateDocument now doc config
        = (doc, some ⟨ErrCodeInvalidDimension,
            "expected vector dimension " ++ toString config.dimension ++
              ", got " ++ toString doc.vector.length⟩) := by
      unfold ValidateDocument
      rw [if_neg hid, if_pos hdim]
    unfold UpsertDocument
    rw [hc]
    dsimp only
    rw [hv]
  · intro now st coll doc hnd hinv
    unfold UpsertDocument
    cases hc : getCollectionConfig st coll with
    | error e => exact hinv
    | ok config =>
      dsimp only
      rcases hval : ValidateDocument now doc config with ⟨doc', res⟩
      cases res with
      | some e => exact hinv
      | none =>
        dsimp only
        cases ht : getTable st coll with
        | none => exact hinv
        | some rows =>
          dsimp only
          intro en hen m hm hname r hr
          have hen' : en ∈ st.tables.map (fun x =>
              if (x.1 == coll) = true then (x.1, upsertRow rows doc' now) else x) := hen
          obtain ⟨e0, he0, heq⟩ := List.mem_map.1 hen'
          by_cases hk : (e0.1 == coll) = true
          · rw [if_pos hk] at heq
            subst heq
            have hk' : e0.1 = coll := by simpa using hk
            unfold getCollectionConfig at hc
            cases hm0 : st.metaRows.find? (fun x => x.name == coll) with
            | none =>
              rw [hm0] at hc
              exact Except.noConfusion hc
            | some m0 =>
              rw [hm0] at hc
              dsimp only at hc
              injection hc with hcc
              subst hcc
              have hm0mem : m0 ∈ st.metaRows := List.mem_of_find?_eq_some hm0
              have hm0name : m0.name = coll := by
                have hp := List.find?_some hm0
                simpa using hp
              have hmname : m.name = coll := by
                have hme : m.name = e0.1 := hname
                rw [hme, hk']
              have hmeq : m = m0 :=
                List.inj_on_of_nodup_map hnd hm hm0mem (by rw [hmname, hm0name])
              have hr' : r ∈ upsertRow rows doc' now := hr
              rcases upsertRow_mem hr' with hrold | hrvec
              · unfold getTable at ht
                cases he1 : st.tables.find? (fun x => x.1 == coll) with
                | none =>
                  rw [he1] at ht
                  simp at ht
                | some e1 =>
                  rw [he1] at ht
                  have hrows : e1.2 = rows := by simpa using ht
                  have he1mem : e1 ∈ st.tables := List.mem_of_find?_eq_some he1
                  have he1key : e1.1 = coll := by
                    have hp := List.find?_some he1
                    simpa using hp
                  exact hinv e1 he1mem m hm (by rw [hmname, he1key]) r
                    (by rw [hrows]; exact hrold)
              · have hvec : doc'.vector = doc.vector := by
                  have hf := validateDocument_fst_vector now doc
                    ⟨coll, m0.dimension, m0.indexType, m0.distanceType, m0.customFields⟩
                  rw [hval] at hf
                  exact hf
                have hlen : (doc.vector.length : Int) = m0.dimension := by
                  have hl := validateDocument_ok_length hval
                  simpa using hl
                rw [hrvec, hvec, hmeq]
                exact hlen
          · rw [if_neg hk] at heq
            subst heq
            exact hinv e0 he0 m hm hname r hr

/-- C5: counterexample — the registered dimension of `docs` is 1 and
the empty-id document's vector length is 0, yet `UpsertDocument` fails
with `InvalidConfig` (empty document ID, code 401), not with the
`InvalidDimension` (code 400) the claim requires for every document of
mismatched length. -/
theorem c5_counterexample :
    (getCollectionConfig docsStore "docs").toOption.map (fun c => c.dimension) = some 1 ∧
    (emptyIdDoc.vector.length : Int) ≠ 1 ∧
    (UpsertDocument 7 docsStore "docs" emptyIdDoc).1
      = some (.vec ⟨ErrCodeInvalidConfig, "document ID cannot be empty"⟩) ∧
    ErrCodeInvalidConfig ≠ ErrCodeInvalidDimension := by
  refine ⟨rfl, ?_, rfl, ?_⟩ <;> decide

/-- C5 witness: the mismatch case on the concrete dimension-1 collection
and the invariant-preservation case on a concrete successful upsert. -/
theorem c5_witness :
    UpsertDocument 7 docsStore "docs" badDoc
      = (some (.vec ⟨ErrCodeInvalidDimension, "expected vector dimension 1, got 2"⟩),
         docsStore) ∧
    storeInvariant (UpsertDocument 9 rowStore "docs" newDoc).2 := by
  constructor
  · exact c5_dimension_enforced.1 7 docsStore "docs" badDoc
      ⟨"docs", 1, "hnsw", "cosine", []⟩ (by rfl) (by decide) (by decide)
  · exact c5_dimension_enforced.2 9 rowStore "docs" newDoc (by decide) (by decide)

/-- C9: with `IncludeVectors` requested, the constructed query selects
the vector column, but the scanner's never-assigned `hasVector` flag
keeps the scan-target count at six, so scanning any matching row fails
and `SearchByVector` returns `OperationFailed` instead of results; and
no successful search result ever carries a document vector. -/
theorem c9_includeVectors_scan_fails :
    (∀ st coll vec opts config rows,
      getCollectionConfig st coll = .ok config →
      (vec.length : Int) = config.dimension →
      getTable st coll = some rows →
      opts.includeVectors = true →
      searchPageRows rows vec opts ≠ [] →
      SearchByVector st coll vec (some opts)
        = .error (.vec ⟨ErrCodeOperationFailed, "failed to scan search result"⟩)) ∧
    (∀ st coll vec optsIn results,
      SearchByVector st coll vec optsIn = .ok results →
      ∀ res ∈ results, res.document.vector = []) := by
  constructor
  · intro st coll vec opts config rows hc hdim ht hiv hne
    unfold SearchByVector
    rw [hc]
    dsimp only
    rw [if_neg (fun h => h hdim)]
    rw [ht]
    simp only [Option.getD_some]
    cases hp : searchPageRows rows vec opts with
    | nil => exact absurd hp hne
    | cons row rest =>
      have hrow : row.vectorCol.isSome = true :=
        searchPageRows_vectorCol (hp ▸ List.mem_cons_self row rest) hiv
      unfold scanSearchResults
      simp [hrow]
  · intro st coll vec optsIn results h
    unfold SearchByVector at h
    cases hc : getCollectionConfig st coll with
    | error e =>
      rw [hc] at h
      exact Except.noConfusion h
    | ok config =>
      rw [hc] at h
      dsimp only at h
      split at h
      · exact Except.noConfusion h
      · cases ht : getTable st coll with
        | none =>
          rw [ht] at h
          exact Except.noConfusion h
        | some rows =>
          rw [ht] at h
          dsimp only at h
          exact scanSearchResults_ok_vector h

/-- C9 witness: the scan failure on a one-row collection with
`IncludeVectors` set, and a successful search whose result carries no
vector. -/
theorem c9_witness :
    SearchByVector rowStore "docs" [0] (some ivOpts)
      = .error (.vec ⟨ErrCodeOperationFailed, "failed to scan search result"⟩) ∧
    (⟨⟨"d1", [], "old", [], 3, 4⟩, 0, 1⟩ : VectorSearchResult).document.vector = [] := by
  constructor
  · exact c9_includeVectors_scan_fails.1 rowStore "docs" [0] ivOpts
      ⟨"docs", 1, "hnsw", "cosine", []⟩ [rowD] (by rfl) (by decide) (by rfl) (by rfl)
      (by decide)
  · exact c9_includeVectors_scan_fails.2 rowStore "docs" [0] none
      [⟨⟨"d1", [], "old", [], 3, 4⟩, 0, 1⟩] (by rfl)
      ⟨⟨"d1", [], "old", [], 3, 4⟩, 0, 1⟩ (List.mem_cons_self _ _)

end Guti
